import Mathlib

/-!
Verification of the collaborative code workspace subsystem.

This file shallowly embeds, in Lean 4, the parts of the backend relevant to
the session registry (`backend/app/core_collab/store.py`), the execution
sandbox (`backend/app/services/code_runner.py`) and the session-connection
handler (`backend/app/ws/routes.py`), and proves properties about them.

Modelling conventions:
* Python `dict`s are embedded as association lists (`List (k × v)`) with
  operations `alookup` (subscript read / `.get`), `aset` (`d[k] = v`:
  updates the value in place when the key is present, otherwise appends at
  the end, matching insertion-ordered Python dicts) and `aerase`
  (`d.pop(k, None)`).
* ISO-8601 timestamp strings are embedded as `Timestamp := Option ℚ`:
  `some t` stands for a well-formed timestamp string denoting instant `t`
  (rational time, in seconds), `none` for a string that
  `datetime.fromisoformat` fails to parse (raising `ValueError`).
  `datetime.now()` is an explicit `now : ℚ` argument to every operation
  that reads the clock, and `now.isoformat()` is `some now`.
* Text manipulated byte-wise by the sandbox is embedded as `Str := List Char`
  (a Python `str` is a sequence of code points); `len(s.encode("utf-8"))`
  is `utf8Len`.
-/

set_option autoImplicit false

abbrev Str : Type := List Char

/-- `len(s.encode("utf-8"))`: total UTF-8 byte length of a string. -/
def utf8Len (s : Str) : Nat :=
  (s.map Char.utf8Size).sum

section AListOps

variable {α : Type} {β : Type} [DecidableEq α]

/-- Python dict subscript read / `.get(k)`. -/
def alookup : List (α × β) → α → Option β
  | [], _ => none
  | (k, v) :: rest, a => if k = a then some v else alookup rest a

/-- Python `d[k] = v`: update in place if present, else append at the end. -/
def aset : List (α × β) → α → β → List (α × β)
  | [], a, b => [(a, b)]
  | (k, v) :: rest, a, b => if k = a then (k, b) :: rest else (k, v) :: aset rest a b

/-- Python `d.pop(k, None)` (ignoring the returned value). -/
def aerase : List (α × β) → α → List (α × β)
  | [], _ => []
  | (k, v) :: rest, a => if k = a then rest else (k, v) :: aerase rest a

end AListOps

/-! ## The session registry: `backend/app/core_collab/store.py` -/

/-- An ISO-8601 timestamp string: `some t` parses to instant `t` (seconds),
`none` makes `datetime.fromisoformat` raise `ValueError`. -/
abbrev Timestamp : Type := Option ℚ

/-- `now.isoformat()` for the current instant `now`. -/
def tsNow (now : ℚ) : Timestamp := some now

/-- Cursor payload `{anchor: int, head: int, file?: str}` (the shape produced
by the protocol boundary in `ws/routes.py`). -/
structure Cursor where
  anchor : Int
  head : Int
  file : Option String
deriving DecidableEq, Repr

/-- `CoreSession` dataclass from `core_collab/store.py`. -/
structure CoreSession where
  id : Nat
  project_id : Nat
  name : String
  created_at : Timestamp
  updated_at : Timestamp
  y_updates : List String
  version : Nat
  presence : List (String × Option Cursor)
  following : List (String × Option String)
  presence_seen_at : List (String × Timestamp)
deriving DecidableEq, Repr

/-- `CoreSessionStore.__init__`. -/
structure CoreSessionStore where
  sessions : List (Nat × CoreSession)
  next_id : Nat
deriving DecidableEq, Repr

namespace CoreSessionStore

/-- `CoreSessionStore.create`: allocate the next id, initialize an empty
log, version 1, empty maps, timestamps now; returns the stored snapshot. -/
def create (st : CoreSessionStore) (now : ℚ) (project_id : Nat) (name : String) :
    CoreSessionStore × CoreSession :=
  let session : CoreSession :=
    { id := st.next_id
      project_id := project_id
      name := name
      created_at := tsNow now
      updated_at := tsNow now
      y_updates := []
      version := 1
      presence := []
      following := []
      presence_seen_at := [] }
  ({ sessions := aset st.sessions session.id session, next_id := st.next_id + 1 }, session)

/-- `CoreSessionStore.get`. -/
def get (st : CoreSessionStore) (session_id : Nat) : Option CoreSession :=
  alookup st.sessions session_id

/-- `CoreSessionStore.update_content`: append to `y_updates`, bump `version`,
refresh `updated_at`; `none` when the session is absent. -/
def update_content (st : CoreSessionStore) (now : ℚ) (session_id : Nat)
    (content : String) : CoreSessionStore × Option CoreSession :=
  match alookup st.sessions session_id with
  | none => (st, none)
  | some s =>
    let s' := { s with
      y_updates := s.y_updates ++ [content]
      version := s.version + 1
      updated_at := tsNow now }
    ({ st with sessions := aset st.sessions session_id s' }, some s')

/-- `CoreSessionStore.replace_updates`: `y_updates = [snapshot_update]`,
bump `version`, refresh `updated_at`. -/
def replace_updates (st : CoreSessionStore) (now : ℚ) (session_id : Nat)
    (snapshot_update : String) : CoreSessionStore × Option CoreSession :=
  match alookup st.sessions session_id with
  | none => (st, none)
  | some s =>
    let s' := { s with
      y_updates := [snapshot_update]
      version := s.version + 1
      updated_at := tsNow now }
    ({ st with sessions := aset st.sessions session_id s' }, some s')

/-- `CoreSessionStore.set_presence`. -/
def set_presence (st : CoreSessionStore) (now : ℚ) (session_id : Nat)
    (username : String) (cursor : Option Cursor) : CoreSessionStore × Option CoreSession :=
  match alookup st.sessions session_id with
  | none => (st, none)
  | some s =>
    let s' := { s with
      presence := aset s.presence username cursor
      presence_seen_at := aset s.presence_seen_at username (tsNow now)
      updated_at := tsNow now }
    ({ st with sessions := aset st.sessions session_id s' }, some s')

/-- The `for follower, target in list(session.following.items())` reset loop
in `clear_presence`: every entry whose value equals `username` is set to
`None` (keys are unique in a dict, so setting by key is mapping over values). -/
def resetFollowers (following : List (String × Option String)) (username : String) :
    List (String × Option String) :=
  following.map (fun kv => if kv.2 = some username then (kv.1, none) else kv)

/-- `CoreSessionStore.clear_presence`: pop `presence[username]`,
`presence_seen_at[username]` and `following[username]`, then null out every
remaining follower of `username`; returns the updated snapshot. -/
def clear_presence (st : CoreSessionStore) (now : ℚ) (session_id : Nat)
    (username : String) : CoreSessionStore × Option CoreSession :=
  match alookup st.sessions session_id with
  | none => (st, none)
  | some s =>
    let s' := { s with
      presence := aerase s.presence username
      presence_seen_at := aerase s.presence_seen_at username
      following := resetFollowers (aerase s.following username) username
      updated_at := tsNow now }
    ({ st with sessions := aset st.sessions session_id s' }, some s')

/-- `CoreSessionStore.set_follow`. -/
def set_follow (st : CoreSessionStore) (now : ℚ) (session_id : Nat)
    (follower : String) (target_user : Option String) : CoreSessionStore × Option CoreSession :=
  match alookup st.sessions session_id with
  | none => (st, none)
  | some s =>
    let s' := { s with
      following := aset s.following follower target_user
      updated_at := tsNow now }
    ({ st with sessions := aset st.sessions session_id s' }, some s')

/-- Staleness test inside `prune_stale_presence`: a timestamp that fails to
parse (`ValueError`) is stale, otherwise stale iff `now - seen_at >
timedelta(seconds=ttl_seconds)`. -/
def isStale (now : ℚ) (ttl_seconds : Int) : Timestamp → Bool
  | none => true
  | some t => decide ((ttl_seconds : ℚ) < now - t)

/-- `CoreSessionStore.prune_stale_presence`: collect the stale usernames by
iterating `presence_seen_at` in order, then clear each via `clear_presence`;
returns the stale list. -/
def prune_stale_presence (st : CoreSessionStore) (now : ℚ) (session_id : Nat)
    (ttl_seconds : Int) : CoreSessionStore × List String :=
  match alookup st.sessions session_id with
  | none => (st, [])
  | some s =>
    let stale : List String :=
      ((s.presence_seen_at.filter (fun kv => isStale now ttl_seconds kv.2)).map Prod.fst)
    (stale.foldl (fun acc u => (clear_presence acc now session_id u).1) st, stale)

/-- `CoreSessionStore.reset`. -/
def reset (_st : CoreSessionStore) : CoreSessionStore :=
  { sessions := [], next_id := 1 }

end CoreSessionStore

/-! ## The execution sandbox: `backend/app/services/code_runner.py`

The host environment (`shutil.which` results), the subprocess layer
(`_run_subprocess`) and the ephemeral directory name are abstracted into
explicit parameters (`ToolEnv`, `ExecOracle`, `tmpdir`); filesystem writes
and subprocess invocations are recorded as an explicit effect trace.
Wall-clock durations (`time.perf_counter`) are outside a shallow embedding,
so every `duration_ms` field is modelled as `0`. -/

def MAX_TOTAL_BYTES : Nat := 350000
def MAX_FILE_BYTES : Nat := 120000
def MAX_FILES : Nat := 80
def MAX_OUTPUT_BYTES : Nat := 24000

/-- The `RunResult` TypedDict. -/
structure RunResult where
  ok : Bool
  command : Str
  exit_code : Int
  stdout : Str
  stderr : Str
  duration_ms : Nat
deriving DecidableEq, Repr

/-- `_truncate`: streams at most `MAX_OUTPUT_BYTES` UTF-8 bytes long pass
through; longer ones become `text[: MAX_OUTPUT_BYTES // 2]` followed by the
truncation marker. -/
def _truncate (text : Str) : Str :=
  if utf8Len text ≤ MAX_OUTPUT_BYTES then text
  else text.take (MAX_OUTPUT_BYTES / 2) ++ "\n...[output truncated]...".toList

/-- Python `str.strip()` (whitespace at both ends). -/
def pyStrip (s : Str) : Str :=
  ((s.dropWhile Char.isWhitespace).reverse.dropWhile Char.isWhitespace).reverse

/-- `_safe_rel_path`. -/
def _safe_rel_path (path : Str) : Option Str :=
  let normalized :=
    (pyStrip (path.map (fun c => if c = '\\' then '/' else c))).dropWhile (· = '/')
  if normalized = [] then none
  else if normalized.getLast? = some '/' then none
  else
    let parts :=
      (List.splitOn '/' normalized).filter (fun part => decide (part ≠ [] ∧ part ≠ ['.']))
    if parts.any (fun part => part == ['.', '.']) then none
    else some (List.intercalate ['/'] parts)

/-- `PurePath(p).name`: the final path component. -/
def pathName (p : Str) : Str :=
  (List.splitOn '/' p).getLastD []

/-- `PurePath(p).suffix`: computed via `name.rfind('.')`, nonempty only when
the last dot is neither the first nor the last character of the name. -/
def pathSuffix (p : Str) : Str :=
  let name := pathName p
  match (name.reverse.findIdx? (fun c => c = '.')).map (fun k => name.length - 1 - k) with
  | none => []
  | some i => if 0 < i ∧ i < name.length - 1 then name.drop i else []

/-- `shutil.which` results for the five toolchain binaries. -/
structure ToolEnv where
  node : Option Str
  tsx : Option Str
  deno : Option Str
  go : Option Str
  rustc : Option Str
deriving DecidableEq, Repr

/-- Outcome of one `_run_subprocess` call: a completed process with exit
code and captured streams, or `subprocess.TimeoutExpired`. -/
inductive ExecResult where
  | completed (exit_code : Int) (stdout : Str) (stderr : Str)
  | timedOut
deriving DecidableEq, Repr

/-- The subprocess layer, as a function from command line to outcome. -/
def ExecOracle : Type := List Str → ExecResult

/-- Externally visible side effects of a run. -/
inductive Effect where
  | writeFile (path : Str) (content : Str)
  | spawn (command : List Str)
deriving DecidableEq, Repr

/-- Result of `run_code`: a returned `RunResult`, or an exception escaping
the function (the Rust compile step runs outside the `try` block, so its
`TimeoutExpired` is uncaught). -/
inductive Outcome where
  | result (r : RunResult)
  | raised
deriving DecidableEq, Repr

/-- The bad-input early-return shape: `ok=False`, empty command, exit code
2, empty stdout, the given stderr. -/
def badInputResult (stderr : Str) : RunResult :=
  { ok := false, command := [], exit_code := 2, stdout := [], stderr := stderr,
    duration_ms := 0 }

/-- `" ".join(command)`. -/
def joinSpace (command : List Str) : Str :=
  List.intercalate [' '] command

/-- `sum(len(content.encode("utf-8")) for content in files.values())`. -/
def totalBytes (files : List (Str × Str)) : Nat :=
  (files.map (fun kv => utf8Len kv.2)).sum

/-- `safe_entry in files` (dict key membership). -/
def memKey (files : List (Str × Str)) (k : Str) : Bool :=
  files.any (fun kv => decide (kv.1 = k))

/-- The file-materialization loop of `run_code`: write each file after
checking its path and size; stops with a bad-input result at the first
offending file, keeping the writes already performed. -/
def writeFiles : List (Str × Str) → List Effect × Option RunResult
  | [] => ([], none)
  | (raw_path, content) :: rest =>
    match _safe_rel_path raw_path with
    | none => ([], some (badInputResult ("Invalid path: ".toList ++ raw_path)))
    | some safe_path =>
      if safe_path = [] then
        ([], some (badInputResult ("Invalid path: ".toList ++ raw_path)))
      else if MAX_FILE_BYTES < utf8Len content then
        ([], some (badInputResult ("File too large: ".toList ++ safe_path)))
      else
        let rec_result := writeFiles rest
        (.writeFile safe_path content :: rec_result.1, rec_result.2)

/-- The final `try: _run_subprocess ... except TimeoutExpired` block of
`run_code` (lines 204–223): run the resolved command, truncate its streams;
on timeout return the 124 sentinel with empty stdout. -/
def finishRun (oracle : ExecOracle) (command : List Str) (timeout_seconds : Int) :
    RunResult :=
  match oracle command with
  | .completed code out err =>
    { ok := decide (code = 0), command := joinSpace command, exit_code := code,
      stdout := _truncate out, stderr := _truncate err, duration_ms := 0 }
  | .timedOut =>
    { ok := false, command := joinSpace command, exit_code := 124, stdout := [],
      stderr := "Execution timed out after ".toList
        ++ (toString timeout_seconds).toList ++ " seconds.".toList,
      duration_ms := 0 }

/-- `run_code`. -/
def run_code (env : ToolEnv) (oracle : ExecOracle) (tmpdir : Str)
    (files : List (Str × Str)) (entry_file : Str) (timeout_seconds : Int) :
    Outcome × List Effect :=
  if files = [] then
    (.result (badInputResult "No files to run.".toList), [])
  else if MAX_FILES < files.length then
    (.result (badInputResult ("Too many files. Limit is ".toList
      ++ (toString MAX_FILES).toList ++ ".".toList)), [])
  else
    match _safe_rel_path entry_file with
    | none => (.result (badInputResult "Entry file is invalid or missing.".toList), [])
    | some safe_entry =>
      if safe_entry = [] ∨ memKey files safe_entry = false then
        (.result (badInputResult "Entry file is invalid or missing.".toList), [])
      else if MAX_TOTAL_BYTES < totalBytes files then
        (.result (badInputResult ("Workspace too large. Limit is ".toList
          ++ (toString MAX_TOTAL_BYTES).toList ++ " bytes.".toList)), [])
      else
        match writeFiles files with
        | (effs, some err) => (.result err, effs)
        | (effs, none) =>
          let entry_abs := tmpdir ++ '/' :: safe_entry
          let ext := (pathSuffix safe_entry).map Char.toLower
          if ext = ".py".toList then
            (.result (finishRun oracle ["python3".toList, entry_abs] timeout_seconds),
              effs ++ [.spawn ["python3".toList, entry_abs]])
          else if ext = ".js".toList ∨ ext = ".mjs".toList ∨ ext = ".cjs".toList then
            match env.node with
            | none =>
              (.result { ok := false
                         command := "node".toList
                         exit_code := 127
                         stdout := []
                         stderr := "Node.js is not installed on the server.".toList
                         duration_ms := 0 }, effs)
            | some node =>
              (.result (finishRun oracle [node, entry_abs] timeout_seconds),
                effs ++ [.spawn [node, entry_abs]])
          else if ext = ".ts".toList ∨ ext = ".tsx".toList then
            match env.tsx, env.deno with
            | some tsx, _ =>
              (.result (finishRun oracle [tsx, entry_abs] timeout_seconds),
                effs ++ [.spawn [tsx, entry_abs]])
            | none, some deno =>
              (.result (finishRun oracle
                  [deno, "run".toList, "--quiet".toList, entry_abs] timeout_seconds),
                effs ++ [.spawn [deno, "run".toList, "--quiet".toList, entry_abs]])
            | none, none =>
              (.result { ok := false
                         command := "tsx|deno".toList
                         exit_code := 127
                         stdout := []
                         stderr := "TypeScript runtime is not installed (need tsx or deno).".toList
                         duration_ms := 0 }, effs)
          else if ext = ".go".toList then
            match env.go with
            | none =>
              (.result { ok := false
                         command := "go".toList
                         exit_code := 127
                         stdout := []
                         stderr := "Go is not installed on the server.".toList
                         duration_ms := 0 }, effs)
            | some go =>
              (.result (finishRun oracle [go, "run".toList, entry_abs] timeout_seconds),
                effs ++ [.spawn [go, "run".toList, entry_abs]])
          else if ext = ".rs".toList then
            match env.rustc with
            | none =>
              (.result { ok := false
                         command := "rustc".toList
                         exit_code := 127
                         stdout := []
                         stderr := "Rust is not installed on the server.".toList
                         duration_ms := 0 }, effs)
            | some rustc =>
              let binary_path := tmpdir ++ "/run_bin".toList
              let compileCmd := [rustc, entry_abs, "-O".toList, "-o".toList, binary_path]
              match oracle compileCmd with
              | .timedOut => (.raised, effs ++ [.spawn compileCmd])
              | .completed compile_code compile_out compile_err =>
                if compile_code = 0 then
                  (.result (finishRun oracle [binary_path] timeout_seconds),
                    effs ++ [.spawn compileCmd, .spawn [binary_path]])
                else
                  (.result { ok := false
                             command := joinSpace compileCmd
                             exit_code := compile_code
                             stdout := _truncate compile_out
                             stderr := _truncate compile_err
                             duration_ms := 0 },
                    effs ++ [.spawn compileCmd])
          else
            (.result (badInputResult ("Unsupported file type: ".toList
              ++ (if ext = [] then "no extension".toList else ext))), effs)

/-! ## The session connection handler: `backend/app/ws/routes.py`

Only the connect phase of `core_session_ws` (lines 66–112, after
authentication and authorization succeed) is embedded: it is modelled as a
pure function producing the new registry state together with an event trace.
Transport sends are modelled as reliable (the `except Exception:
room.discard(peer)` self-healing arm never fires), matching a successful
connect. `room` is the iteration order of `list(room)` taken after
`room.add(websocket)`; Python sets iterate in unspecified order, so it is an
arbitrary list containing the joining connection. -/

def PRESENCE_TTL_SECONDS : Int := 30

/-- Wire messages sent during the connect phase. -/
inductive WsMsg where
  | presenceUpdate (session_id : Nat) (user : String) (cursor : Option Cursor)
  | presenceLeave (session_id : Nat) (user : String)
  | bootstrap (session_id : Nat) (updates : List String) (version : Nat)
      (presence : List (String × Option Cursor))
      (following : List (String × Option String))
deriving DecidableEq, Repr

/-- Observable steps of the connect phase, in program order. -/
inductive WsEvent where
  | roomAdd (ws : Nat)
  | storeSetPresence (user : String) (cursor : Option Cursor)
  | send (dest : Nat) (msg : WsMsg)
  | storePrune (ttl_seconds : Int)
  | close (code : Nat)
deriving DecidableEq, Repr

/-- The connect phase of `core_session_ws`: add the connection to the room,
`set_presence(id, user, None)`, broadcast `presence.update` to every peer in
the room snapshot (which contains the joiner), `prune_stale_presence` with
the 30-second TTL broadcasting `presence.leave` per evicted user, then send
the bootstrap to the joining connection only (or close 1011 if the session
vanished). -/
def core_session_ws_connect (st : CoreSessionStore) (now : ℚ) (session_id : Nat)
    (room : List Nat) (ws : Nat) (username : String) :
    CoreSessionStore × List WsEvent :=
  let st1 := (st.set_presence now session_id username none).1
  let broadcasts :=
    room.map (fun peer => WsEvent.send peer (.presenceUpdate session_id username none))
  let pruned := st1.prune_stale_presence now session_id PRESENCE_TTL_SECONDS
  let leaves :=
    (pruned.2.map (fun stale_user =>
      room.map (fun peer => WsEvent.send peer (.presenceLeave session_id stale_user)))).flatten
  match pruned.1.get session_id with
  | none =>
    (pruned.1,
      [WsEvent.roomAdd ws, WsEvent.storeSetPresence username none] ++ broadcasts
        ++ [WsEvent.storePrune PRESENCE_TTL_SECONDS] ++ leaves ++ [WsEvent.close 1011])
  | some s =>
    (pruned.1,
      [WsEvent.roomAdd ws, WsEvent.storeSetPresence username none] ++ broadcasts
        ++ [WsEvent.storePrune PRESENCE_TTL_SECONDS] ++ leaves
        ++ [WsEvent.send ws (.bootstrap session_id s.y_updates s.version s.presence s.following)])

/-! ## Mutation sequences over the registry -/

/-- One accepted-or-rejected registry mutation: `update_content`
(`appendUpdate`) or `replace_updates` (`replaceWithSnapshot`). -/
inductive Mutation where
  | appendUpdate (session_id : Nat) (content : String) (now : ℚ)
  | replaceWithSnapshot (session_id : Nat) (content : String) (now : ℚ)
deriving DecidableEq, Repr

/-- The session id a mutation targets. -/
def Mutation.sid : Mutation → Nat
  | .appendUpdate sid _ _ => sid
  | .replaceWithSnapshot sid _ _ => sid

/-- Dispatch a mutation to the corresponding store operation. -/
def applyMutation (st : CoreSessionStore) : Mutation → CoreSessionStore × Option CoreSession
  | .appendUpdate sid c now => st.update_content now sid c
  | .replaceWithSnapshot sid c now => st.replace_updates now sid c

/-- Run a sequence of mutations left to right. -/
def runMutations (st : CoreSessionStore) : List Mutation → CoreSessionStore
  | [] => st
  | m :: ms => runMutations (applyMutation st m).1 ms

/-- Number of mutations in the sequence that target `sid` and are accepted
(the store returns a snapshot rather than not-found). -/
def acceptedCount (st : CoreSessionStore) (sid : Nat) : List Mutation → Nat
  | [] => 0
  | m :: ms =>
    (if m.sid = sid ∧ ((applyMutation st m).2).isSome then 1 else 0)
      + acceptedCount (applyMutation st m).1 sid ms

/-! ## Definitions taken from the specification's words (for comparison) -/

/-- Modelled from the spec: "`clearPresence(id, user)` ... returns the set
of followers whose target changed", i.e. the followers whose `following`
value equals the cleared username (those reset to null). -/
def specChangedFollowers (s : CoreSession) (username : String) : List String :=
  (s.following.filter (fun kv => decide (kv.2 = some username))).map Prod.fst

/-- `p` is a leading portion of `t`. -/
def leadsStr (p t : Str) : Prop := ∃ r, p ++ r = t

/-- `sfx` is a trailing portion of `t`. -/
def trailsStr (sfx t : Str) : Prop := ∃ r, r ++ sfx = t

/-- The session record built inside `clear_presence` from a found session. -/
def clearedSession (s : CoreSession) (username : String) (now : ℚ) : CoreSession :=
  { s with
    presence := aerase s.presence username
    presence_seen_at := aerase s.presence_seen_at username
    following := CoreSessionStore.resetFollowers (aerase s.following username) username
    updated_at := tsNow now }

/-- The extensions `run_code` dispatches on. -/
def supportedExts : List Str :=
  [".py", ".js", ".mjs", ".cjs", ".ts", ".tsx", ".go", ".rs"].map String.toList

/-- A file entry that the materialization loop rejects: unnormalizable or
empty path, or content over the per-file ceiling. -/
def badFileB (kv : Str × Str) : Bool :=
  (match _safe_rel_path kv.1 with
   | none => true
   | some sp => sp.isEmpty) || decide (MAX_FILE_BYTES < utf8Len kv.2)

/-- The input fails one of `run_code`'s validation checks (empty file set,
file count, entry path, total size, a per-file path or size, or an
unsupported entry extension). -/
def validationFails (files : List (Str × Str)) (entry_file : Str) : Bool :=
  files.isEmpty || decide (MAX_FILES < files.length)
  || (match _safe_rel_path entry_file with
      | none => true
      | some se => se.isEmpty || !(memKey files se))
  || decide (MAX_TOTAL_BYTES < totalBytes files)
  || files.any badFileB
  || (match _safe_rel_path entry_file with
      | none => true
      | some se => !(supportedExts.contains ((pathSuffix se).map Char.toLower)))

/-- The entry's extension selects a toolchain whose binary `shutil.which`
does not find. -/
def toolchainMissing (env : ToolEnv) (entry_file : Str) : Bool :=
  match _safe_rel_path entry_file with
  | none => false
  | some se =>
    let ext := (pathSuffix se).map Char.toLower
    ((ext == ".js".toList || ext == ".mjs".toList || ext == ".cjs".toList) && env.node.isNone)
    || ((ext == ".ts".toList || ext == ".tsx".toList) && env.tsx.isNone && env.deno.isNone)
    || (ext == ".go".toList && env.go.isNone)
    || (ext == ".rs".toList && env.rustc.isNone)

/-! ## Concrete fixtures used in witnesses and counterexamples -/

/-- The store as built by `CoreSessionStore()`. -/
def emptyStore : CoreSessionStore := { sessions := [], next_id := 1 }

/-- A session with two present users where bob follows alice. -/
def sW : CoreSession :=
  { id := 1
    project_id := 1
    name := "Pair"
    created_at := some 0
    updated_at := some 0
    y_updates := ["u0"]
    version := 2
    presence := [("alice", none), ("bob", none)]
    following := [("bob", some "alice")]
    presence_seen_at := [("alice", some 0), ("bob", some 80)] }

/-- A one-session store around `sW`. -/
def stW : CoreSessionStore := { sessions := [(1, sW)], next_id := 2 }

/-- Like `sW` but bob currently follows alice. -/
def s4a : CoreSession :=
  { id := 1
    project_id := 1
    name := "Pair"
    created_at := some 0
    updated_at := some 0
    y_updates := []
    version := 1
    presence := [("bob", none)]
    following := [("bob", some "alice")]
    presence_seen_at := [("bob", some 0)] }

/-- Like `s4a` but bob follows nobody. -/
def s4b : CoreSession :=
  { s4a with following := [("bob", none)] }

/-- A one-session store around `s4a`. -/
def st4a : CoreSessionStore := { sessions := [(1, s4a)], next_id := 2 }

/-- A one-session store around `s4b`. -/
def st4b : CoreSessionStore := { sessions := [(1, s4b)], next_id := 2 }

/-- A host with no toolchain binaries installed. -/
def envNone : ToolEnv :=
  { node := none, tsx := none, deno := none, go := none, rustc := none }

/-- A string of 24001 one-byte characters (just over the output ceiling). -/
def t8 : Str := List.replicate 24001 'a'

/-! ## Theorems. First, laws of the embedded dict operations. -/

section AListLemmas

variable {α : Type} {β : Type} [DecidableEq α]

@[simp] theorem alookup_nil (a : α) : alookup ([] : List (α × β)) a = none := rfl

@[simp] theorem alookup_cons (k : α) (v : β) (rest : List (α × β)) (a : α) :
    alookup ((k, v) :: rest) a = if k = a then some v else alookup rest a := rfl

@[simp] theorem aset_nil (a : α) (b : β) : aset ([] : List (α × β)) a b = [(a, b)] := rfl

@[simp] theorem aset_cons (k : α) (v : β) (rest : List (α × β)) (a : α) (b : β) :
    aset ((k, v) :: rest) a b =
      if k = a then (k, b) :: rest else (k, v) :: aset rest a b := rfl

@[simp] theorem alookup_aset_self (l : List (α × β)) (a : α) (b : β) :
    alookup (aset l a b) a = some b := by
  induction l with
  | nil => simp [aset]
  | cons kv rest ih =>
    obtain ⟨k, v⟩ := kv
    by_cases h : k = a <;> simp [aset, alookup, h, ih]

theorem alookup_aset_ne (l : List (α × β)) (a : α) (b : β) (a' : α) (h : a' ≠ a) :
    alookup (aset l a b) a' = alookup l a' := by
  induction l with
  | nil => simp [aset, alookup, Ne.symm h]
  | cons kv rest ih =>
    obtain ⟨k, v⟩ := kv
    by_cases hk : k = a
    · subst hk
      simp [aset, alookup, Ne.symm h]
    · simp [aset, alookup, hk, ih]

theorem alookup_aerase_ne (l : List (α × β)) (a a' : α) (h : a' ≠ a) :
    alookup (aerase l a) a' = alookup l a' := by
  induction l with
  | nil => simp [aerase]
  | cons kv rest ih =>
    obtain ⟨k, v⟩ := kv
    by_cases hk : k = a
    · subst hk
      simp [aerase, alookup, Ne.symm h]
    · simp [aerase, alookup, hk, ih]

theorem alookup_eq_none_of_not_mem_keys (l : List (α × β)) (a : α)
    (h : a ∉ l.map Prod.fst) : alookup l a = none := by
  induction l with
  | nil => rfl
  | cons kv rest ih =>
    obtain ⟨k, v⟩ := kv
    simp only [List.map_cons, List.mem_cons, not_or] at h
    have hk : ¬k = a := fun hh => h.1 hh.symm
    simp [alookup, hk, ih h.2]

theorem alookup_aerase_self_of_nodup (l : List (α × β)) (a : α)
    (h : (l.map Prod.fst).Nodup) : alookup (aerase l a) a = none := by
  induction l with
  | nil => simp [aerase]
  | cons kv rest ih =>
    obtain ⟨k, v⟩ := kv
    simp only [List.map_cons, List.nodup_cons] at h
    by_cases hk : k = a
    · subst hk
      simp only [aerase, if_pos rfl]
      exact alookup_eq_none_of_not_mem_keys rest k h.1
    · simp [aerase, alookup, hk, ih h.2]

theorem alookup_mem (l : List (α × β)) (a : α) (b : β)
    (h : alookup l a = some b) : (a, b) ∈ l := by
  induction l with
  | nil => simp [alookup] at h
  | cons kv rest ih =>
    obtain ⟨k, v⟩ := kv
    simp only [alookup_cons] at h
    by_cases hk : k = a
    · subst hk
      simp at h
      subst h
      exact List.mem_cons_self _ _
    · simp only [if_neg hk] at h
      exact List.mem_cons_of_mem _ (ih h)

theorem aerase_sublist (l : List (α × β)) (a : α) : List.Sublist (aerase l a) l := by
  induction l with
  | nil => simp [aerase]
  | cons kv rest ih =>
    obtain ⟨k, v⟩ := kv
    by_cases hk : k = a
    · simp [aerase, hk, (List.Sublist.refl rest).cons (k, v)]
    · simpa [aerase, hk] using ih.cons₂ (k, v)

theorem aerase_keys_nodup (l : List (α × β)) (a : α)
    (h : (l.map Prod.fst).Nodup) : ((aerase l a).map Prod.fst).Nodup :=
  ((aerase_sublist l a).map Prod.fst).nodup h

end AListLemmas

/-! ## Laws of `clear_presence`'s building blocks -/

theorem resetFollowers_value_ne (l : List (String × Option String)) (u : String)
    (kv : String × Option String) (h : kv ∈ CoreSessionStore.resetFollowers l u) :
    kv.2 ≠ some u := by
  rcases List.mem_map.mp h with ⟨kv0, hmem, heq⟩
  subst heq
  by_cases hv : kv0.2 = some u <;> simp [hv]

theorem alookup_resetFollowers (l : List (String × Option String)) (u x : String) :
    alookup (CoreSessionStore.resetFollowers l u) x
      = (alookup l x).map (fun v => if v = some u then none else v) := by
  induction l with
  | nil => rfl
  | cons kv rest ih =>
    obtain ⟨k, v⟩ := kv
    show alookup ((if v = some u then (k, none) else (k, v))
        :: CoreSessionStore.resetFollowers rest u) x = _
    by_cases hv : v = some u
    · rw [if_pos hv]
      by_cases hk : k = x
      · subst hk
        simp [alookup, hv]
      · simp [alookup, hk, ih]
    · rw [if_neg hv]
      by_cases hk : k = x
      · subst hk
        simp [alookup, hv]
      · simp [alookup, hk, ih]

theorem keys_resetFollowers (l : List (String × Option String)) (u : String) :
    (CoreSessionStore.resetFollowers l u).map Prod.fst = l.map Prod.fst := by
  induction l with
  | nil => rfl
  | cons kv rest ih =>
    obtain ⟨k, v⟩ := kv
    by_cases hv : v = some u <;> simp [CoreSessionStore.resetFollowers, hv] <;>
      simpa [CoreSessionStore.resetFollowers] using ih

theorem not_mem_keys_aerase_of_nodup {α β : Type} [DecidableEq α]
    (l : List (α × β)) (a : α) (h : (l.map Prod.fst).Nodup) :
    a ∉ (aerase l a).map Prod.fst := by
  induction l with
  | nil => simp [aerase]
  | cons kv rest ih =>
    obtain ⟨k, v⟩ := kv
    simp only [List.map_cons, List.nodup_cons] at h
    by_cases hk : k = a
    · subst hk
      simpa [aerase] using h.1
    · simp only [aerase, if_neg hk, List.map_cons, List.mem_cons, not_or]
      exact ⟨fun hh => hk hh.symm, ih h.2⟩

theorem clear_presence_eq (st : CoreSessionStore) (now : ℚ) (sid : Nat) (u : String)
    (s : CoreSession) (h : st.get sid = some s) :
    st.clear_presence now sid u =
      ({ st with sessions := aset st.sessions sid (clearedSession s u now) },
        some (clearedSession s u now)) := by
  have h' : alookup st.sessions sid = some s := h
  unfold CoreSessionStore.clear_presence
  rw [h']
  rfl

/-- C2: for every existing session id and every string `S`, after
`replace_updates(id, S)` the session's update log equals the one-element
sequence `[S]`, regardless of the log's prior contents; the store holds and
returns the same updated snapshot. -/
theorem c2_replace_with_snapshot (st : CoreSessionStore) (now : ℚ) (sid : Nat)
    (snap : String) (s : CoreSession) (h : st.get sid = some s) :
    ∃ s', st.replace_updates now sid snap
        = ({ st with sessions := aset st.sessions sid s' }, some s')
      ∧ s'.y_updates = [snap]
      ∧ (st.replace_updates now sid snap).1.get sid = some s' := by
  have h' : alookup st.sessions sid = some s := h
  refine ⟨{ s with y_updates := [snap], version := s.version + 1, updated_at := tsNow now },
    ?_, rfl, ?_⟩
  · unfold CoreSessionStore.replace_updates
    rw [h']
  · unfold CoreSessionStore.replace_updates
    rw [h']
    exact alookup_aset_self _ _ _

/-- C2 witness at a concrete store. -/
theorem c2_replace_with_snapshot_witness :
    ∃ s', stW.replace_updates 5 1 "S"
        = ({ stW with sessions := aset stW.sessions 1 s' }, some s')
      ∧ s'.y_updates = ["S"]
      ∧ (stW.replace_updates 5 1 "S").1.get 1 = some s' :=
  c2_replace_with_snapshot stW 5 1 "S" sW (by decide)

/-- C5: for every existing session and user `u`, after `clear_presence(id, u)`
no entry of the session's `following` map has value equal to `u` (no follow
edge references the removed user). -/
theorem c5_clear_presence_no_follow_to_removed (st : CoreSessionStore) (now : ℚ)
    (sid : Nat) (u : String) (s : CoreSession) (h : st.get sid = some s) :
    ∃ s', (st.clear_presence now sid u).1.get sid = some s'
      ∧ (st.clear_presence now sid u).2 = some s'
      ∧ ∀ kv ∈ s'.following, kv.2 ≠ some u := by
  rw [clear_presence_eq st now sid u s h]
  refine ⟨clearedSession s u now, alookup_aset_self _ _ _, rfl, ?_⟩
  intro kv hkv
  exact resetFollowers_value_ne _ _ _ hkv

/-- C5 witness at a concrete store where bob follows alice. -/
theorem c5_clear_presence_no_follow_to_removed_witness :
    ∃ s', (stW.clear_presence 9 1 "alice").1.get 1 = some s'
      ∧ (stW.clear_presence 9 1 "alice").2 = some s'
      ∧ ∀ kv ∈ s'.following, kv.2 ≠ some "alice" :=
  c5_clear_presence_no_follow_to_removed stW 9 1 "alice" sW (by decide)

/-- C10: `clear_presence(id, u)` also deletes `u`'s own entry as a follower
key from `following` (not merely nulling incoming edges), so afterwards `u`
appears in `following` neither as a key nor as a value; entries of other
followers are kept, with values equal to `u` reset to null. -/
theorem c10_clear_presence_drops_own_follow_key (st : CoreSessionStore) (now : ℚ)
    (sid : Nat) (u : String) (s : CoreSession) (h : st.get sid = some s)
    (hfn : (s.following.map Prod.fst).Nodup) :
    ∃ s', (st.clear_presence now sid u).1.get sid = some s'
      ∧ alookup s'.following u = none
      ∧ (∀ kv ∈ s'.following, kv.1 ≠ u ∧ kv.2 ≠ some u)
      ∧ (∀ x, x ≠ u → alookup s'.following x
          = (alookup s.following x).map (fun v => if v = some u then none else v)) := by
  rw [clear_presence_eq st now sid u s h]
  refine ⟨clearedSession s u now, alookup_aset_self _ _ _, ?_, ?_, ?_⟩
  · show alookup (CoreSessionStore.resetFollowers (aerase s.following u) u) u = none
    rw [alookup_resetFollowers, alookup_aerase_self_of_nodup _ _ hfn]
    rfl
  · intro kv hkv
    have hkv' : kv ∈ CoreSessionStore.resetFollowers (aerase s.following u) u := hkv
    refine ⟨?_, resetFollowers_value_ne _ _ _ hkv'⟩
    intro hk
    have hmem : kv.1 ∈ (CoreSessionStore.resetFollowers (aerase s.following u) u).map Prod.fst :=
      List.mem_map_of_mem Prod.fst hkv'
    rw [keys_resetFollowers, hk] at hmem
    exact not_mem_keys_aerase_of_nodup s.following u hfn hmem
  · intro x hx
    show alookup (CoreSessionStore.resetFollowers (aerase s.following u) u) x = _
    rw [alookup_resetFollowers, alookup_aerase_ne _ _ _ hx]

/-- C10 witness at a concrete store. -/
theorem c10_clear_presence_drops_own_follow_key_witness :
    ∃ s', (stW.clear_presence 9 1 "bob").1.get 1 = some s'
      ∧ alookup s'.following "bob" = none
      ∧ (∀ kv ∈ s'.following, kv.1 ≠ "bob" ∧ kv.2 ≠ some "bob")
      ∧ (∀ x, x ≠ "bob" → alookup s'.following x
          = (alookup sW.following x).map (fun v => if v = some "bob" then none else v)) :=
  c10_clear_presence_drops_own_follow_key stW 9 1 "bob" sW (by decide) (by decide)

/-- C4 counterexample: `clear_presence` returns the updated session snapshot,
not the set of followers whose target changed. Two stores that differ in
whether bob currently follows alice produce identical `clear_presence`
outputs while their changed-follower sets differ, so no reading of the
return value yields that set. -/
theorem c4_counterexample :
    CoreSessionStore.clear_presence st4a 7 1 "alice"
        = CoreSessionStore.clear_presence st4b 7 1 "alice"
      ∧ specChangedFollowers s4a "alice" ≠ specChangedFollowers s4b "alice"
      ∧ ¬ ∃ decode : CoreSessionStore × Option CoreSession → List String,
          decode (CoreSessionStore.clear_presence st4a 7 1 "alice")
              = specChangedFollowers s4a "alice"
          ∧ decode (CoreSessionStore.clear_presence st4b 7 1 "alice")
              = specChangedFollowers s4b "alice" := by
  refine ⟨by decide, by decide, ?_⟩
  rintro ⟨d, h1, h2⟩
  rw [show CoreSessionStore.clear_presence st4a 7 1 "alice"
      = CoreSessionStore.clear_presence st4b 7 1 "alice" from by decide] at h1
  rw [h1] at h2
  exact (by decide : specChangedFollowers s4a "alice"
    ≠ specChangedFollowers s4b "alice") h2

/-- C4 (amended): `clear_presence(id, u)` removes `presence[u]` and
`presence_seen_at[u]`, drops `u`'s own follower entry, resets to null every
other `following` entry whose value equals `u`, and returns the updated
session snapshot (the same record it stores) — not the changed-follower
set. -/
theorem c4_clear_presence_returns_snapshot (st : CoreSessionStore) (now : ℚ)
    (sid : Nat) (u : String) (s : CoreSession) (h : st.get sid = some s)
    (hpn : (s.presence.map Prod.fst).Nodup)
    (hsn : (s.presence_seen_at.map Prod.fst).Nodup)
    (hfn : (s.following.map Prod.fst).Nodup) :
    ∃ s', st.clear_presence now sid u
        = ({ st with sessions := aset st.sessions sid s' }, some s')
      ∧ alookup s'.presence u = none
      ∧ alookup s'.presence_seen_at u = none
      ∧ alookup s'.following u = none
      ∧ (∀ x, x ≠ u → alookup s'.following x
          = (alookup s.following x).map (fun v => if v = some u then none else v))
      ∧ ∀ kv ∈ s'.following, kv.2 ≠ some u := by
  rw [clear_presence_eq st now sid u s h]
  refine ⟨clearedSession s u now, rfl, ?_, ?_, ?_, ?_, ?_⟩
  · exact alookup_aerase_self_of_nodup _ _ hpn
  · exact alookup_aerase_self_of_nodup _ _ hsn
  · show alookup (CoreSessionStore.resetFollowers (aerase s.following u) u) u = none
    rw [alookup_resetFollowers, alookup_aerase_self_of_nodup _ _ hfn]
    rfl
  · intro x hx
    show alookup (CoreSessionStore.resetFollowers (aerase s.following u) u) x = _
    rw [alookup_resetFollowers, alookup_aerase_ne _ _ _ hx]
  · intro kv hkv
    exact resetFollowers_value_ne _ _ _ hkv

/-- C4 (amended) witness at a concrete store. -/
theorem c4_clear_presence_returns_snapshot_witness :
    ∃ s', stW.clear_presence 9 1 "alice"
        = ({ stW with sessions := aset stW.sessions 1 s' }, some s')
      ∧ alookup s'.presence "alice" = none
      ∧ alookup s'.presence_seen_at "alice" = none
      ∧ alookup s'.following "alice" = none
      ∧ (∀ x, x ≠ "alice" → alookup s'.following x
          = (alookup sW.following x).map (fun v => if v = some "alice" then none else v))
      ∧ ∀ kv ∈ s'.following, kv.2 ≠ some "alice" :=
  c4_clear_presence_returns_snapshot stW 9 1 "alice" sW (by decide) (by decide)
    (by decide) (by decide)

/-! ## Version counting (C1) -/

theorem applyMutation_get_other (st : CoreSessionStore) (m : Mutation) (sid : Nat)
    (h : m.sid ≠ sid) : ((applyMutation st m).1).get sid = st.get sid := by
  cases m with
  | appendUpdate sid' c now =>
    have h' : sid' ≠ sid := h
    show (st.update_content now sid' c).1.get sid = st.get sid
    unfold CoreSessionStore.update_content
    cases hl : alookup st.sessions sid' with
    | none => rfl
    | some s =>
      simp only [hl]
      exact alookup_aset_ne st.sessions sid' _ sid (Ne.symm h')
  | replaceWithSnapshot sid' c now =>
    have h' : sid' ≠ sid := h
    show (st.replace_updates now sid' c).1.get sid = st.get sid
    unfold CoreSessionStore.replace_updates
    cases hl : alookup st.sessions sid' with
    | none => rfl
    | some s =>
      simp only [hl]
      exact alookup_aset_ne st.sessions sid' _ sid (Ne.symm h')

theorem applyMutation_accepted (st : CoreSessionStore) (m : Mutation) (s : CoreSession)
    (h : st.get m.sid = some s) :
    ∃ s', (applyMutation st m).2 = some s'
      ∧ (applyMutation st m).1.get m.sid = some s'
      ∧ s'.version = s.version + 1 := by
  cases m with
  | appendUpdate sid' c now =>
    have h' : alookup st.sessions sid' = some s := h
    refine ⟨{ s with
        y_updates := s.y_updates ++ [c]
        version := s.version + 1
        updated_at := tsNow now }, ?_, ?_, rfl⟩
    · show (st.update_content now sid' c).2 = _
      unfold CoreSessionStore.update_content
      rw [h']
    · show (st.update_content now sid' c).1.get sid' = _
      unfold CoreSessionStore.update_content
      rw [h']
      exact alookup_aset_self _ _ _
  | replaceWithSnapshot sid' c now =>
    have h' : alookup st.sessions sid' = some s := h
    refine ⟨{ s with
        y_updates := [c]
        version := s.version + 1
        updated_at := tsNow now }, ?_, ?_, rfl⟩
    · show (st.replace_updates now sid' c).2 = _
      unfold CoreSessionStore.replace_updates
      rw [h']
    · show (st.replace_updates now sid' c).1.get sid' = _
      unfold CoreSessionStore.replace_updates
      rw [h']
      exact alookup_aset_self _ _ _

theorem runMutations_version (ms : List Mutation) :
    ∀ (st : CoreSessionStore) (sid : Nat) (s : CoreSession), st.get sid = some s →
    ∃ s', (runMutations st ms).get sid = some s'
      ∧ s'.version = s.version + acceptedCount st sid ms := by
  induction ms with
  | nil =>
    intro st sid s h
    exact ⟨s, h, by simp [acceptedCount]⟩
  | cons m ms ih =>
    intro st sid s h
    by_cases hm : m.sid = sid
    · obtain ⟨s1, hacc, hget, hver⟩ := applyMutation_accepted st m s (by rw [hm]; exact h)
      obtain ⟨s', hget', hver'⟩ := ih (applyMutation st m).1 sid s1 (by rw [← hm]; exact hget)
      refine ⟨s', hget', ?_⟩
      rw [hver', hver]
      have hcond : m.sid = sid ∧ ((applyMutation st m).2).isSome = true := by
        rw [hacc]
        exact ⟨hm, rfl⟩
      simp only [acceptedCount, if_pos hcond]
      omega
    · have hpres : (applyMutation st m).1.get sid = some s := by
        rw [applyMutation_get_other st m sid hm]
        exact h
      obtain ⟨s', hget', hver'⟩ := ih _ sid s hpres
      refine ⟨s', hget', ?_⟩
      rw [hver']
      simp [acceptedCount, hm]

theorem acceptedCount_eq_length (ms : List Mutation) :
    ∀ (st : CoreSessionStore) (sid : Nat) (s : CoreSession), st.get sid = some s →
    (∀ m ∈ ms, m.sid = sid) → acceptedCount st sid ms = ms.length := by
  induction ms with
  | nil => intros; rfl
  | cons m ms ih =>
    intro st sid s h hall
    have hm : m.sid = sid := hall m (List.mem_cons_self m ms)
    obtain ⟨s1, hacc, hget, _⟩ := applyMutation_accepted st m s (by rw [hm]; exact h)
    have hrest : acceptedCount (applyMutation st m).1 sid ms = ms.length :=
      ih _ sid s1 (by rw [← hm]; exact hget) (fun m' hm' => hall m' (List.mem_cons_of_mem _ hm'))
    simp [acceptedCount, hm, hacc, hrest, Nat.add_comm]

theorem create_get (st : CoreSessionStore) (now : ℚ) (pid : Nat) (name : String) :
    (st.create now pid name).1.get (st.create now pid name).2.id
      = some (st.create now pid name).2 :=
  alookup_aset_self _ _ _

/-- C1: for a session made by `create` (version 1) and any sequence of
`appendUpdate`/`replaceWithSnapshot` mutations addressed to that session's
id, the final version equals 1 plus the number of accepted mutations (all of
them, since the session exists); versions along any prefix never exceed the
final version, so the counter never decreases or resets. -/
theorem c1_version_counts_accepted_mutations (st : CoreSessionStore) (now : ℚ)
    (pid : Nat) (name : String) (ms : List Mutation)
    (hall : ∀ m ∈ ms, m.sid = (st.create now pid name).2.id) :
    ∃ s', (runMutations (st.create now pid name).1 ms).get
            (st.create now pid name).2.id = some s'
      ∧ s'.version
          = 1 + acceptedCount (st.create now pid name).1 (st.create now pid name).2.id ms
      ∧ s'.version = 1 + ms.length
      ∧ ∀ ms1 ms2, ms = ms1 ++ ms2 →
          ∃ s1, (runMutations (st.create now pid name).1 ms1).get
                  (st.create now pid name).2.id = some s1
            ∧ s1.version ≤ s'.version := by
  have hv1 : (st.create now pid name).2.version = 1 := rfl
  obtain ⟨s', hget, hver⟩ := runMutations_version ms _ _ _ (create_get st now pid name)
  have hcnt := acceptedCount_eq_length ms _ _ _ (create_get st now pid name) hall
  rw [hv1] at hver
  refine ⟨s', hget, hver, by rw [hver, hcnt], ?_⟩
  intro ms1 ms2 hsplit
  obtain ⟨s1, hget1, hver1⟩ := runMutations_version ms1 _ _ _ (create_get st now pid name)
  have hall1 : ∀ m ∈ ms1, m.sid = (st.create now pid name).2.id := by
    intro m hm
    exact hall m (by rw [hsplit]; exact List.mem_append_left ms2 hm)
  have hcnt1 := acceptedCount_eq_length ms1 _ _ _ (create_get st now pid name) hall1
  rw [hv1] at hver1
  have hlen : ms.length = ms1.length + ms2.length := by rw [hsplit]; simp
  refine ⟨s1, hget1, ?_⟩
  rw [hver1, hcnt1, hver, hcnt, hlen]
  omega

/-- C1 witness: create then one update and one snapshot, version reaches 3. -/
theorem c1_version_counts_accepted_mutations_witness :
    ∃ s', (runMutations (emptyStore.create 0 1 "Pair").1
            [Mutation.appendUpdate 1 "u1" 1, Mutation.replaceWithSnapshot 1 "S" 2]).get
            (emptyStore.create 0 1 "Pair").2.id = some s'
      ∧ s'.version = 1 + acceptedCount (emptyStore.create 0 1 "Pair").1
            (emptyStore.create 0 1 "Pair").2.id
            [Mutation.appendUpdate 1 "u1" 1, Mutation.replaceWithSnapshot 1 "S" 2]
      ∧ s'.version = 1 + ([Mutation.appendUpdate 1 "u1" 1,
            Mutation.replaceWithSnapshot 1 "S" 2] : List Mutation).length
      ∧ ∀ ms1 ms2, ([Mutation.appendUpdate 1 "u1" 1,
            Mutation.replaceWithSnapshot 1 "S" 2] : List Mutation) = ms1 ++ ms2 →
          ∃ s1, (runMutations (emptyStore.create 0 1 "Pair").1 ms1).get
                  (emptyStore.create 0 1 "Pair").2.id = some s1
            ∧ s1.version ≤ s'.version :=
  c1_version_counts_accepted_mutations emptyStore 0 1 "Pair"
    [Mutation.appendUpdate 1 "u1" 1, Mutation.replaceWithSnapshot 1 "S" 2]
    (by decide)

/-! ## Stale-presence pruning (C3) -/

theorem mem_unique_of_keys_nodup {α β : Type} (l : List (α × β))
    (h : (l.map Prod.fst).Nodup) {a : α} {b1 b2 : β}
    (h1 : (a, b1) ∈ l) (h2 : (a, b2) ∈ l) : b1 = b2 := by
  induction l with
  | nil => simp at h1
  | cons kv rest ih =>
    obtain ⟨k, v⟩ := kv
    simp only [List.map_cons, List.nodup_cons] at h
    rcases List.mem_cons.mp h1 with he1 | hm1 <;> rcases List.mem_cons.mp h2 with he2 | hm2
    · injection he1 with hk1 hv1
      injection he2 with hk2 hv2
      rw [hv1, hv2]
    · injection he1 with hk1 hv1
      exfalso
      apply h.1
      rw [← hk1]
      exact List.mem_map_of_mem Prod.fst hm2
    · injection he2 with hk2 hv2
      exfalso
      apply h.1
      rw [← hk2]
      exact List.mem_map_of_mem Prod.fst hm1
    · exact ih h.2 hm1 hm2

theorem prune_stale_eq (st : CoreSessionStore) (now : ℚ) (sid : Nat) (ttl : Int)
    (s : CoreSession) (h : st.get sid = some s) :
    st.prune_stale_presence now sid ttl =
      (((s.presence_seen_at.filter (fun kv => CoreSessionStore.isStale now ttl kv.2)).map
          Prod.fst).foldl (fun acc u => (acc.clear_presence now sid u).1) st,
        (s.presence_seen_at.filter (fun kv => CoreSessionStore.isStale now ttl kv.2)).map
          Prod.fst) := by
  have h' : alookup st.sessions sid = some s := h
  unfold CoreSessionStore.prune_stale_presence
  rw [h']

theorem clear_presence_fold_get (now : ℚ) (sid : Nat) (L : List String) :
    ∀ (st : CoreSessionStore) (s : CoreSession), st.get sid = some s →
    (s.presence.map Prod.fst).Nodup → (s.presence_seen_at.map Prod.fst).Nodup →
    ∃ s', (L.foldl (fun acc u => (acc.clear_presence now sid u).1) st).get sid = some s'
      ∧ (s'.presence.map Prod.fst).Nodup
      ∧ (s'.presence_seen_at.map Prod.fst).Nodup
      ∧ (∀ u, u ∈ L → alookup s'.presence u = none ∧ alookup s'.presence_seen_at u = none)
      ∧ (∀ u, u ∉ L → alookup s'.presence u = alookup s.presence u
          ∧ alookup s'.presence_seen_at u = alookup s.presence_seen_at u) := by
  induction L with
  | nil =>
    intro st s h hp hs
    exact ⟨s, h, hp, hs, by simp, fun u _ => ⟨rfl, rfl⟩⟩
  | cons u0 L ih =>
    intro st s h hp hs
    have hget1 : (st.clear_presence now sid u0).1.get sid = some (clearedSession s u0 now) := by
      rw [clear_presence_eq st now sid u0 s h]
      exact alookup_aset_self _ _ _
    have hp1 : ((clearedSession s u0 now).presence.map Prod.fst).Nodup :=
      aerase_keys_nodup _ _ hp
    have hs1 : ((clearedSession s u0 now).presence_seen_at.map Prod.fst).Nodup :=
      aerase_keys_nodup _ _ hs
    obtain ⟨s', hg, hp', hs', hin, hout⟩ := ih _ _ hget1 hp1 hs1
    refine ⟨s', hg, hp', hs', ?_, ?_⟩
    · intro u hu
      rcases List.mem_cons.mp hu with rfl | hu'
      · by_cases hL : u ∈ L
        · exact hin u hL
        · have hpres := hout u hL
          constructor
          · rw [hpres.1]
            exact alookup_aerase_self_of_nodup _ _ hp
          · rw [hpres.2]
            exact alookup_aerase_self_of_nodup _ _ hs
      · exact hin u hu'
    · intro u hu
      have hu0 : u ≠ u0 := fun hh => hu (hh ▸ List.mem_cons_self u0 L)
      have huL : u ∉ L := fun hh => hu (List.mem_cons_of_mem _ hh)
      have hpres := hout u huL
      constructor
      · rw [hpres.1]
        exact alookup_aerase_ne _ _ _ hu0
      · rw [hpres.2]
        exact alookup_aerase_ne _ _ _ hu0

/-- C3: `prune_stale_presence(id, ttl)` removes exactly the users with an
entry whose last-seen timestamp is stale (fails to parse, or older than
`ttl` seconds), never one seen within `ttl`; it returns the removed
usernames and clears each of them (their presence and liveness entries are
gone from the stored session, while users not in the returned list keep
theirs). -/
theorem c3_prune_stale_exact (st : CoreSessionStore) (now : ℚ) (sid : Nat)
    (ttl : Int) (s : CoreSession) (h : st.get sid = some s)
    (hkeys : s.presence.map Prod.fst = s.presence_seen_at.map Prod.fst)
    (hnd : (s.presence_seen_at.map Prod.fst).Nodup) :
    (∀ u, u ∈ (st.prune_stale_presence now sid ttl).2
        ↔ ∃ ts, (u, ts) ∈ s.presence_seen_at ∧ CoreSessionStore.isStale now ttl ts = true)
    ∧ (∀ u t, (u, some t) ∈ s.presence_seen_at → now - t ≤ (ttl : ℚ)
        → u ∉ (st.prune_stale_presence now sid ttl).2)
    ∧ ∃ s', (st.prune_stale_presence now sid ttl).1.get sid = some s'
        ∧ (∀ u, u ∈ (st.prune_stale_presence now sid ttl).2 →
            alookup s'.presence u = none ∧ alookup s'.presence_seen_at u = none)
        ∧ (∀ u, u ∉ (st.prune_stale_presence now sid ttl).2 →
            alookup s'.presence u = alookup s.presence u
            ∧ alookup s'.presence_seen_at u = alookup s.presence_seen_at u) := by
  have hmem : ∀ u, u ∈ (st.prune_stale_presence now sid ttl).2
      ↔ ∃ ts, (u, ts) ∈ s.presence_seen_at ∧ CoreSessionStore.isStale now ttl ts = true := by
    intro u
    rw [prune_stale_eq st now sid ttl s h]
    constructor
    · intro hmem
      rcases List.mem_map.mp hmem with ⟨kv, hkv, hfst⟩
      have hf := List.mem_filter.mp hkv
      refine ⟨kv.2, ?_, hf.2⟩
      rw [← hfst, Prod.mk.eta]
      exact hf.1
    · rintro ⟨ts, hts, hstale⟩
      exact List.mem_map.mpr ⟨(u, ts), List.mem_filter.mpr ⟨hts, hstale⟩, rfl⟩
  refine ⟨hmem, ?_, ?_⟩
  · intro u t hmem0 hle humem
    rcases (hmem u).mp humem with ⟨ts, hts, hstale⟩
    have : ts = some t := mem_unique_of_keys_nodup s.presence_seen_at hnd hts hmem0
    rw [this] at hstale
    simp only [CoreSessionStore.isStale, decide_eq_true_eq] at hstale
    linarith
  · have hp : (s.presence.map Prod.fst).Nodup := by rw [hkeys]; exact hnd
    obtain ⟨s', hg, _, _, hin, hout⟩ :=
      clear_presence_fold_get now sid
        ((s.presence_seen_at.filter (fun kv => CoreSessionStore.isStale now ttl kv.2)).map
          Prod.fst) st s h hp hnd
    refine ⟨s', ?_, ?_, ?_⟩
    · rw [prune_stale_eq st now sid ttl s h]
      exact hg
    · intro u hu
      apply hin
      rw [prune_stale_eq st now sid ttl s h] at hu
      exact hu
    · intro u hu
      apply hout
      rw [prune_stale_eq st now sid ttl s h] at hu
      exact hu

/-- C3 witness: at `now = 100`, `ttl = 30`, alice (seen at 0) is pruned and
bob (seen at 80) is kept. -/
theorem c3_prune_stale_exact_witness :
    (∀ u, u ∈ (stW.prune_stale_presence 100 1 30).2
        ↔ ∃ ts, (u, ts) ∈ sW.presence_seen_at ∧ CoreSessionStore.isStale 100 30 ts = true)
    ∧ (∀ u t, (u, some t) ∈ sW.presence_seen_at → 100 - t ≤ (30 : ℚ)
        → u ∉ (stW.prune_stale_presence 100 1 30).2)
    ∧ ∃ s', (stW.prune_stale_presence 100 1 30).1.get 1 = some s'
        ∧ (∀ u, u ∈ (stW.prune_stale_presence 100 1 30).2 →
            alookup s'.presence u = none ∧ alookup s'.presence_seen_at u = none)
        ∧ (∀ u, u ∉ (stW.prune_stale_presence 100 1 30).2 →
            alookup s'.presence u = alookup sW.presence u
            ∧ alookup s'.presence_seen_at u = alookup sW.presence_seen_at u) :=
  c3_prune_stale_exact stW 100 1 30 sW (by decide) (by decide) (by decide)

/-! ## Output truncation (C8) -/

theorem utf8Len_replicate (n : Nat) (c : Char) :
    utf8Len (List.replicate n c) = n * c.utf8Size := by
  induction n with
  | zero => simp [utf8Len]
  | succ n ih =>
    simp only [List.replicate_succ, utf8Len, List.map_cons, List.sum_cons] at ih ⊢
    rw [ih]
    ring

theorem utf8Len_t8 : utf8Len t8 = 24001 := by
  have ha : 'a'.utf8Size = 1 := rfl
  rw [t8, utf8Len_replicate, ha]

/-- C8 counterexample: on a 24001-byte stream of `a`s, `_truncate` keeps
only the first 12000 characters and appends the marker; the end of the
stream is dropped, so the result is not of the form "leading portion ++
marker ++ (non-empty) trailing portion" for any choice of marker. -/
theorem c8_counterexample :
    MAX_OUTPUT_BYTES < utf8Len t8
    ∧ _truncate t8 = List.replicate 12000 'a' ++ "\n...[output truncated]...".toList
    ∧ ¬ ∃ pre marker suf, leadsStr pre t8 ∧ trailsStr suf t8 ∧ suf ≠ []
        ∧ _truncate t8 = pre ++ (marker ++ suf) := by
  have h1 : MAX_OUTPUT_BYTES < utf8Len t8 := by
    rw [utf8Len_t8]
    norm_num [MAX_OUTPUT_BYTES]
  have h2 : _truncate t8 = List.replicate 12000 'a' ++ "\n...[output truncated]...".toList := by
    unfold _truncate
    rw [if_neg (by omega)]
    rw [show t8.take (MAX_OUTPUT_BYTES / 2) = List.replicate 12000 'a' by
      rw [t8, List.take_replicate]
      norm_num [MAX_OUTPUT_BYTES]]
  refine ⟨h1, h2, ?_⟩
  rintro ⟨pre, marker, suf, _, ⟨r, hsuf⟩, hne, heq⟩
  have hlast_t8 : t8.getLast? = some 'a' := by
    rw [t8, show (24001 : Nat) = 24000 + 1 from rfl, List.replicate_succ',
      List.getLast?_append_of_ne_nil _ (by simp)]
    rfl
  have hlast_suf : suf.getLast? = some 'a' := by
    rw [← List.getLast?_append_of_ne_nil r hne, hsuf, hlast_t8]
  have hlast_lhs : (_truncate t8).getLast? = some '.' := by
    rw [h2, List.getLast?_append_of_ne_nil _ (by decide)]
    decide
  have hlast_rhs : (pre ++ (marker ++ suf)).getLast? = some 'a' := by
    rw [List.getLast?_append_of_ne_nil _ (by simp [hne]),
      List.getLast?_append_of_ne_nil _ hne, hlast_suf]
  rw [heq, hlast_rhs] at hlast_lhs
  exact absurd hlast_lhs (by decide)

/-- C8 (amended): a captured stream whose UTF-8 length is within the 24000
byte ceiling is returned unchanged; one exceeding it is replaced by its
first 12000 characters (a leading portion of the stream) followed by the
truncation marker — the trailing portion is discarded, not preserved. -/
theorem c8_truncate_keeps_head_only (text : Str) :
    (utf8Len text ≤ MAX_OUTPUT_BYTES → _truncate text = text)
    ∧ (MAX_OUTPUT_BYTES < utf8Len text →
        _truncate text = text.take (MAX_OUTPUT_BYTES / 2)
            ++ "\n...[output truncated]...".toList
        ∧ leadsStr (text.take (MAX_OUTPUT_BYTES / 2)) text) := by
  constructor
  · intro h
    unfold _truncate
    rw [if_pos h]
  · intro h
    constructor
    · unfold _truncate
      rw [if_neg (by omega)]
    · exact ⟨text.drop (MAX_OUTPUT_BYTES / 2), List.take_append_drop _ _⟩

/-- C8 (amended) witness: a short stream is unchanged; the 24001-byte
stream is cut to its first 12000 characters plus the marker. -/
theorem c8_truncate_keeps_head_only_witness :
    _truncate "hi".toList = "hi".toList
    ∧ (_truncate t8 = t8.take (MAX_OUTPUT_BYTES / 2)
          ++ "\n...[output truncated]...".toList
        ∧ leadsStr (t8.take (MAX_OUTPUT_BYTES / 2)) t8) :=
  ⟨(c8_truncate_keeps_head_only "hi".toList).1 (by decide),
    (c8_truncate_keeps_head_only t8).2 (by rw [utf8Len_t8]; norm_num [MAX_OUTPUT_BYTES])⟩

/-! ## Sandbox validation (C6, C7) -/

theorem ne_nil_append_left {α : Type} (l1 l2 : List α) (h : l1 ≠ []) : l1 ++ l2 ≠ [] := by
  cases l1 with
  | nil => exact absurd rfl h
  | cons a t => simp

/-- C6: a run whose files' total UTF-8 byte size exceeds the 350000-byte
ceiling returns `ok=false`, empty stdout, a non-empty stderr and the
bad-input sentinel exit code 2, with an empty effect trace: no file is
written and no subprocess is spawned. -/
theorem c6_total_ceiling_no_effects (env : ToolEnv) (oracle : ExecOracle) (tmpdir : Str)
    (files : List (Str × Str)) (entry_file : Str) (timeout_seconds : Int)
    (h : MAX_TOTAL_BYTES < totalBytes files) :
    ∃ r, run_code env oracle tmpdir files entry_file timeout_seconds
        = (.result r, [])
      ∧ r.ok = false ∧ r.stdout = [] ∧ r.stderr ≠ [] ∧ r.exit_code = 2 := by
  have hne : files ≠ [] := by
    intro hf
    rw [hf] at h
    simp [totalBytes, MAX_TOTAL_BYTES] at h
  unfold run_code
  rw [if_neg hne]
  split
  · exact ⟨_, rfl, rfl, rfl, ne_nil_append_left _ _ (by decide), rfl⟩
  · split
    · exact ⟨_, rfl, rfl, rfl, by decide, rfl⟩
    · split
      · exact ⟨_, rfl, rfl, rfl, by decide, rfl⟩
      · exact ⟨_, rfl, rfl, rfl, ne_nil_append_left _ _ (by decide), rfl⟩


theorem totalBytes_singleton (p c : Str) : totalBytes [(p, c)] = utf8Len c := by
  simp [totalBytes]

/-- C6 witness: a single 350001-byte file is rejected with no effects. -/
theorem c6_total_ceiling_no_effects_witness :
    ∃ r, run_code envNone (fun _ => ExecResult.timedOut) "/tmp/w".toList
          [("main.py".toList, List.replicate 350001 'a')] "main.py".toList 5
        = (.result r, [])
      ∧ r.ok = false ∧ r.stdout = [] ∧ r.stderr ≠ [] ∧ r.exit_code = 2 :=
  c6_total_ceiling_no_effects envNone (fun _ => ExecResult.timedOut) "/tmp/w".toList
    [("main.py".toList, List.replicate 350001 'a')] "main.py".toList 5
    (by
      have ha : 'a'.utf8Size = 1 := rfl
      rw [totalBytes_singleton, utf8Len_replicate, ha]
      norm_num [MAX_TOTAL_BYTES])
theorem writeFiles_err_shape (files : List (Str × Str)) :
    ∀ r, (writeFiles files).2 = some r →
    r.ok = false ∧ r.stdout = [] ∧ r.stderr ≠ [] ∧ r.exit_code = 2 := by
  induction files with
  | nil =>
    intro r h
    simp [writeFiles] at h
  | cons kv rest ih =>
    intro r h
    obtain ⟨p, c⟩ := kv
    unfold writeFiles at h
    cases hsp : _safe_rel_path p with
    | none =>
      rw [hsp] at h
      simp only [Option.some.injEq] at h
      rw [← h]
      exact ⟨rfl, rfl, ne_nil_append_left _ _ (by decide), rfl⟩
    | some sp =>
      rw [hsp] at h
      dsimp only at h
      by_cases hsp0 : sp = []
      · rw [if_pos hsp0] at h
        simp only [Option.some.injEq] at h
        rw [← h]
        exact ⟨rfl, rfl, ne_nil_append_left _ _ (by decide), rfl⟩
      · rw [if_neg hsp0] at h
        by_cases hbig : MAX_FILE_BYTES < utf8Len c
        · rw [if_pos hbig] at h
          simp only [Option.some.injEq] at h
          rw [← h]
          exact ⟨rfl, rfl, ne_nil_append_left _ _ (by decide), rfl⟩
        · rw [if_neg hbig] at h
          exact ih r h

theorem writeFiles_none_iff (files : List (Str × Str)) :
    (writeFiles files).2 = none ↔ files.any badFileB = false := by
  induction files with
  | nil => simp [writeFiles]
  | cons kv rest ih =>
    obtain ⟨p, c⟩ := kv
    unfold writeFiles
    cases hsp : _safe_rel_path p with
    | none =>
      simp [badFileB, hsp]
    | some sp =>
      dsimp only
      by_cases hsp0 : sp = []
      · rw [if_pos hsp0]
        simp [badFileB, hsp, hsp0]
      · rw [if_neg hsp0]
        by_cases hbig : MAX_FILE_BYTES < utf8Len c
        · rw [if_pos hbig]
          simp [badFileB, hsp, hsp0, hbig]
        · rw [if_neg hbig]
          simp [badFileB, hsp, hsp0, hbig, ih]

theorem run_code_validation_failure_shape (env : ToolEnv) (oracle : ExecOracle) (tmpdir : Str)
    (files : List (Str × Str)) (entry_file : Str) (t : Int)
    (hval : validationFails files entry_file = true) :
    ∃ r effs, run_code env oracle tmpdir files entry_file t = (.result r, effs)
      ∧ r.ok = false ∧ r.stdout = [] ∧ r.stderr ≠ [] ∧ r.exit_code = 2 := by
  unfold run_code
  by_cases h1 : files = []
  · rw [if_pos h1]
    exact ⟨_, _, rfl, rfl, rfl, by decide, rfl⟩
  rw [if_neg h1]
  by_cases h2 : MAX_FILES < files.length
  · rw [if_pos h2]
    exact ⟨_, _, rfl, rfl, rfl, ne_nil_append_left _ _ (by decide), rfl⟩
  rw [if_neg h2]
  cases hse : _safe_rel_path entry_file with
  | none =>
    dsimp only
    exact ⟨_, _, rfl, rfl, rfl, by decide, rfl⟩
  | some se =>
    dsimp only
    by_cases h4 : se = [] ∨ memKey files se = false
    · rw [if_pos h4]
      exact ⟨_, _, rfl, rfl, rfl, by decide, rfl⟩
    rw [if_neg h4]
    by_cases h5 : MAX_TOTAL_BYTES < totalBytes files
    · rw [if_pos h5]
      exact ⟨_, _, rfl, rfl, rfl, ne_nil_append_left _ _ (by decide), rfl⟩
    rw [if_neg h5]
    rcases hww : writeFiles files with ⟨effs, oerr⟩
    cases oerr with
    | some err =>
      dsimp only
      have hsh := writeFiles_err_shape files err (by rw [hww])
      exact ⟨err, effs, rfl, hsh.1, hsh.2.1, hsh.2.2.1, hsh.2.2.2⟩
    | none =>
      dsimp only
      have hbad : files.any badFileB = false :=
        (writeFiles_none_iff files).mp (by rw [hww])
      have hne' : files.isEmpty = false := by
        cases files
        · exact absurd rfl h1
        · rfl
      have hcount' : decide (MAX_FILES < files.length) = false := by
        simp [h2]
      have hentry := not_or.mp h4
      have hse0 : se.isEmpty = false := by
        cases hse2 : se
        · exact absurd hse2 hentry.1
        · rfl
      have hmem : memKey files se = true := by
        rcases hmk : memKey files se
        · exact absurd hmk hentry.2
        · rfl
      have htot' : decide (MAX_TOTAL_BYTES < totalBytes files) = false := by
        simp [h5]
      unfold validationFails at hval
      rw [hse] at hval
      dsimp only at hval
      rw [hne', hcount', hse0, hmem, htot', hbad] at hval
      simp only [Bool.not_true, Bool.false_or, Bool.or_false] at hval
      by_cases e1 : List.map Char.toLower (pathSuffix se) = ".py".toList
      · rw [e1] at hval
        exact absurd hval (by decide)
      rw [if_neg e1]
      by_cases e2 : List.map Char.toLower (pathSuffix se) = ".js".toList
        ∨ List.map Char.toLower (pathSuffix se) = ".mjs".toList
        ∨ List.map Char.toLower (pathSuffix se) = ".cjs".toList
      · rcases e2 with e2 | e2 | e2 <;>
          · rw [e2] at hval
            exact absurd hval (by decide)
      rw [if_neg e2]
      by_cases e3 : List.map Char.toLower (pathSuffix se) = ".ts".toList
        ∨ List.map Char.toLower (pathSuffix se) = ".tsx".toList
      · rcases e3 with e3 | e3 <;>
          · rw [e3] at hval
            exact absurd hval (by decide)
      rw [if_neg e3]
      by_cases e4 : List.map Char.toLower (pathSuffix se) = ".go".toList
      · rw [e4] at hval
        exact absurd hval (by decide)
      rw [if_neg e4]
      by_cases e5 : List.map Char.toLower (pathSuffix se) = ".rs".toList
      · rw [e5] at hval
        exact absurd hval (by decide)
      rw [if_neg e5]
      exact ⟨_, _, rfl, rfl, rfl, ne_nil_append_left _ _ (by decide), rfl⟩

theorem run_code_toolchain_missing_shape (env : ToolEnv) (oracle : ExecOracle) (tmpdir : Str)
    (files : List (Str × Str)) (entry_file : Str) (t : Int)
    (hval : validationFails files entry_file = false)
    (htool : toolchainMissing env entry_file = true) :
    ∃ r effs, run_code env oracle tmpdir files entry_file t = (.result r, effs)
      ∧ r.ok = false ∧ r.stdout = [] ∧ r.stderr ≠ [] ∧ r.exit_code = 127 := by
  cases hse : _safe_rel_path entry_file with
  | none =>
    unfold toolchainMissing at htool
    rw [hse] at htool
    simp at htool
  | some se =>
    have h1 : ¬files = [] := by
      intro hf
      rw [hf] at hval
      simp [validationFails] at hval
    have h2 : ¬MAX_FILES < files.length := by
      intro hc
      simp [validationFails, hc] at hval
    have h4 : ¬(se = [] ∨ memKey files se = false) := by
      intro hc
      rcases hc with hc | hc
      · rw [validationFails, hse] at hval
        simp [hc] at hval
      · rw [validationFails, hse] at hval
        simp [hc] at hval
    have h5 : ¬MAX_TOTAL_BYTES < totalBytes files := by
      intro hc
      simp [validationFails, hc] at hval
    have hbadf : files.any badFileB = false := by
      cases hh : files.any badFileB
      · rfl
      · simp [validationFails, hh] at hval
    have hwf : (writeFiles files).2 = none := (writeFiles_none_iff files).mpr hbadf
    unfold toolchainMissing at htool
    rw [hse] at htool
    dsimp only at htool
    simp only [Bool.or_eq_true, Bool.and_eq_true, beq_iff_eq,
      Option.isNone_iff_eq_none] at htool
    unfold run_code
    rw [if_neg h1, if_neg h2, hse]
    dsimp only
    rw [if_neg h4, if_neg h5]
    rcases hww : writeFiles files with ⟨effs, oerr⟩
    rw [hww] at hwf
    dsimp only at hwf
    subst hwf
    dsimp only
    rcases htool with ((⟨hexts, hnode⟩ | ⟨⟨hexts, htsx⟩, hdeno⟩) | ⟨hext, hgo⟩) | ⟨hext, hrc⟩
    · rcases hexts with (hx | hx) | hx <;>
        · rw [hx, if_neg (by decide), if_pos (by decide), hnode]
          exact ⟨_, _, rfl, rfl, rfl, by decide, rfl⟩
    · rcases hexts with hx | hx <;>
        · rw [hx, if_neg (by decide), if_neg (by decide), if_pos (by decide), htsx, hdeno]
          exact ⟨_, _, rfl, rfl, rfl, by decide, rfl⟩
    · rw [hext, if_neg (by decide), if_neg (by decide), if_neg (by decide),
        if_pos (by decide), hgo]
      exact ⟨_, _, rfl, rfl, rfl, by decide, rfl⟩
    · rw [hext, if_neg (by decide), if_neg (by decide), if_neg (by decide),
        if_neg (by decide), if_pos (by decide), hrc]
      exact ⟨_, _, rfl, rfl, rfl, by decide, rfl⟩

/-- C7: the three failure classes use pairwise-distinct fixed sentinel exit
codes — 2 for bad input, 127 for a missing toolchain, 124 for a timeout.
Every validation failure yields `ok=false`, empty stdout and a non-empty
stderr with code 2; a missing-toolchain dispatch yields the same shape with
code 127; a timed-out execution yields code 124 with empty stdout and a
non-empty stderr. -/
theorem c7_distinct_sentinels_and_failure_shapes :
    ((2 : Int) ≠ 127 ∧ (2 : Int) ≠ 124 ∧ (127 : Int) ≠ 124)
    ∧ (∀ (env : ToolEnv) (oracle : ExecOracle) (tmpdir : Str)
        (files : List (Str × Str)) (entry_file : Str) (t : Int),
        validationFails files entry_file = true →
        ∃ r effs, run_code env oracle tmpdir files entry_file t = (.result r, effs)
          ∧ r.ok = false ∧ r.stdout = [] ∧ r.stderr ≠ [] ∧ r.exit_code = 2)
    ∧ (∀ (env : ToolEnv) (oracle : ExecOracle) (tmpdir : Str)
        (files : List (Str × Str)) (entry_file : Str) (t : Int),
        validationFails files entry_file = false →
        toolchainMissing env entry_file = true →
        ∃ r effs, run_code env oracle tmpdir files entry_file t = (.result r, effs)
          ∧ r.ok = false ∧ r.stdout = [] ∧ r.stderr ≠ [] ∧ r.exit_code = 127)
    ∧ (∀ (oracle : ExecOracle) (cmd : List Str) (t : Int), oracle cmd = .timedOut →
        (finishRun oracle cmd t).ok = false ∧ (finishRun oracle cmd t).stdout = []
          ∧ (finishRun oracle cmd t).stderr ≠ []
          ∧ (finishRun oracle cmd t).exit_code = 124) := by
  refine ⟨⟨by decide, by decide, by decide⟩,
    run_code_validation_failure_shape, run_code_toolchain_missing_shape, ?_⟩
  intro oracle cmd t h
  unfold finishRun
  rw [h]
  exact ⟨rfl, rfl, ne_nil_append_left _ _ (ne_nil_append_left _ _ (by decide)), rfl⟩

/-- C7 witness: an unsupported extension gives code 2; a Go entry on a host
without Go gives code 127; a timed-out command gives code 124. -/
theorem c7_distinct_sentinels_and_failure_shapes_witness :
    (∃ r effs, run_code envNone (fun _ => ExecResult.timedOut) "/tmp/w".toList
        [("a.xyz".toList, "x".toList)] "a.xyz".toList 5 = (.result r, effs)
      ∧ r.ok = false ∧ r.stdout = [] ∧ r.stderr ≠ [] ∧ r.exit_code = 2)
    ∧ (∃ r effs, run_code envNone (fun _ => ExecResult.timedOut) "/tmp/w".toList
        [("main.go".toList, "x".toList)] "main.go".toList 5 = (.result r, effs)
      ∧ r.ok = false ∧ r.stdout = [] ∧ r.stderr ≠ [] ∧ r.exit_code = 127)
    ∧ ((finishRun (fun _ => ExecResult.timedOut) ["python3".toList] 5).ok = false
      ∧ (finishRun (fun _ => ExecResult.timedOut) ["python3".toList] 5).stdout = []
      ∧ (finishRun (fun _ => ExecResult.timedOut) ["python3".toList] 5).stderr ≠ []
      ∧ (finishRun (fun _ => ExecResult.timedOut) ["python3".toList] 5).exit_code = 124) :=
  ⟨c7_distinct_sentinels_and_failure_shapes.2.1 envNone (fun _ => ExecResult.timedOut)
      "/tmp/w".toList [("a.xyz".toList, "x".toList)] "a.xyz".toList 5 (by decide),
    c7_distinct_sentinels_and_failure_shapes.2.2.1 envNone (fun _ => ExecResult.timedOut)
      "/tmp/w".toList [("main.go".toList, "x".toList)] "main.go".toList 5
      (by decide) (by decide),
    c7_distinct_sentinels_and_failure_shapes.2.2.2 (fun _ => ExecResult.timedOut)
      ["python3".toList] 5 rfl⟩

/-! ## Connect-phase ordering (C9) -/

theorem set_presence_get_some (st : CoreSessionStore) (now : ℚ) (sid : Nat)
    (u : String) (cur : Option Cursor) (s : CoreSession) (h : st.get sid = some s) :
    ∃ s1, (st.set_presence now sid u cur).1.get sid = some s1 := by
  have h' : alookup st.sessions sid = some s := h
  unfold CoreSessionStore.set_presence
  rw [h']
  exact ⟨_, alookup_aset_self _ _ _⟩

theorem foldClear_get_some (now : ℚ) (sid : Nat) (L : List String) :
    ∀ (st : CoreSessionStore) (s : CoreSession), st.get sid = some s →
    ∃ s', (L.foldl (fun acc u => (acc.clear_presence now sid u).1) st).get sid = some s' := by
  induction L with
  | nil =>
    intro st s h
    exact ⟨s, h⟩
  | cons u0 L ih =>
    intro st s h
    have hget1 : (st.clear_presence now sid u0).1.get sid
        = some (clearedSession s u0 now) := by
      rw [clear_presence_eq st now sid u0 s h]
      exact alookup_aset_self _ _ _
    exact ih _ _ hget1

theorem prune_get_some (st : CoreSessionStore) (now : ℚ) (sid : Nat) (ttl : Int)
    (s : CoreSession) (h : st.get sid = some s) :
    ∃ s', (st.prune_stale_presence now sid ttl).1.get sid = some s' := by
  rw [prune_stale_eq st now sid ttl s h]
  exact foldClear_get_some now sid _ st s h

/-- C9: on a successful connect the handler, in order: adds the connection
to the room, calls `set_presence(id, user, None)`, broadcasts a
`presence.update` with null cursor to every connection in the room snapshot
(which includes the joiner), runs `prune_stale_presence` with the 30-second
TTL broadcasting a `presence.leave` per evicted user to the room, and only
then sends the bootstrap (full update log, version, presence, following) to
the joining connection alone — so the joiner sees its own presence echo
before its bootstrap, and nobody else receives a bootstrap. -/
theorem c9_connect_order (st : CoreSessionStore) (now : ℚ) (sid : Nat)
    (room : List Nat) (ws : Nat) (user : String) (s : CoreSession)
    (h : st.get sid = some s) (hws : ws ∈ room) :
    ∃ stale s',
      stale = ((st.set_presence now sid user none).1.prune_stale_presence now sid
          PRESENCE_TTL_SECONDS).2
      ∧ ((st.set_presence now sid user none).1.prune_stale_presence now sid
          PRESENCE_TTL_SECONDS).1.get sid = some s'
      ∧ (core_session_ws_connect st now sid room ws user).1
          = ((st.set_presence now sid user none).1.prune_stale_presence now sid
              PRESENCE_TTL_SECONDS).1
      ∧ (core_session_ws_connect st now sid room ws user).2
          = [WsEvent.roomAdd ws, WsEvent.storeSetPresence user none]
            ++ room.map (fun p => WsEvent.send p (WsMsg.presenceUpdate sid user none))
            ++ [WsEvent.storePrune 30]
            ++ (stale.map (fun su =>
                  room.map (fun p => WsEvent.send p (WsMsg.presenceLeave sid su)))).flatten
            ++ [WsEvent.send ws
                (WsMsg.bootstrap sid s'.y_updates s'.version s'.presence s'.following)]
      ∧ (∀ e ∈ (core_session_ws_connect st now sid room ws user).2,
          ∀ d u2 v2 p2 f2, e = WsEvent.send d (WsMsg.bootstrap sid u2 v2 p2 f2) → d = ws)
      ∧ ∃ l1 l2, (core_session_ws_connect st now sid room ws user).2
          = l1 ++ WsEvent.send ws (WsMsg.presenceUpdate sid user none) :: l2
          ∧ WsEvent.send ws
              (WsMsg.bootstrap sid s'.y_updates s'.version s'.presence s'.following) ∈ l2 := by
  obtain ⟨s1, hs1⟩ := set_presence_get_some st now sid user none s h
  obtain ⟨s', hs'⟩ := prune_get_some (st.set_presence now sid user none).1 now sid
    PRESENCE_TTL_SECONDS s1 hs1
  have hst : (core_session_ws_connect st now sid room ws user).1
      = ((st.set_presence now sid user none).1.prune_stale_presence now sid
          PRESENCE_TTL_SECONDS).1 := by
    unfold core_session_ws_connect
    dsimp only
    rw [hs']
  have htr : (core_session_ws_connect st now sid room ws user).2
      = [WsEvent.roomAdd ws, WsEvent.storeSetPresence user none]
        ++ room.map (fun p => WsEvent.send p (WsMsg.presenceUpdate sid user none))
        ++ [WsEvent.storePrune 30]
        ++ (((st.set_presence now sid user none).1.prune_stale_presence now sid
              PRESENCE_TTL_SECONDS).2.map (fun su =>
              room.map (fun p => WsEvent.send p (WsMsg.presenceLeave sid su)))).flatten
        ++ [WsEvent.send ws
            (WsMsg.bootstrap sid s'.y_updates s'.version s'.presence s'.following)] := by
    unfold core_session_ws_connect
    dsimp only
    rw [hs']
    rfl
  refine ⟨_, s', rfl, hs', hst, htr, ?_, ?_⟩
  · intro e he d u2 v2 p2 f2 heq
    subst heq
    rw [htr] at he
    simp only [List.mem_append, List.mem_cons, List.mem_map, List.mem_flatten,
      List.not_mem_nil, or_false] at he
    rcases he with ((((he | he) | ⟨p, hp, he⟩) | he) | ⟨l0, ⟨su, hsu, hl0⟩, he⟩) | he
    · exact absurd he (by simp)
    · exact absurd he (by simp)
    · exact absurd he (by simp)
    · exact absurd he (by simp)
    · rw [← hl0] at he
      rcases List.mem_map.mp he with ⟨p, hp, hpe⟩
      exact absurd hpe (by simp)
    · rw [WsEvent.send.injEq] at he
      exact he.1
  · obtain ⟨r1, r2, hr⟩ := List.append_of_mem hws
    refine ⟨[WsEvent.roomAdd ws, WsEvent.storeSetPresence user none]
        ++ r1.map (fun p => WsEvent.send p (WsMsg.presenceUpdate sid user none)),
      r2.map (fun p => WsEvent.send p (WsMsg.presenceUpdate sid user none))
        ++ [WsEvent.storePrune 30]
        ++ (((st.set_presence now sid user none).1.prune_stale_presence now sid
              PRESENCE_TTL_SECONDS).2.map (fun su =>
              room.map (fun p => WsEvent.send p (WsMsg.presenceLeave sid su)))).flatten
        ++ [WsEvent.send ws
            (WsMsg.bootstrap sid s'.y_updates s'.version s'.presence s'.following)],
      ?_, ?_⟩
    · rw [htr, hr]
      simp [List.map_append, List.append_assoc]
    · simp

/-- C9 witness at a concrete store and two-connection room. -/
theorem c9_connect_order_witness :
    ∃ stale s',
      stale = ((stW.set_presence 100 1 "dave" none).1.prune_stale_presence 100 1
          PRESENCE_TTL_SECONDS).2
      ∧ ((stW.set_presence 100 1 "dave" none).1.prune_stale_presence 100 1
          PRESENCE_TTL_SECONDS).1.get 1 = some s'
      ∧ (core_session_ws_connect stW 100 1 [7, 9] 9 "dave").1
          = ((stW.set_presence 100 1 "dave" none).1.prune_stale_presence 100 1
              PRESENCE_TTL_SECONDS).1
      ∧ (core_session_ws_connect stW 100 1 [7, 9] 9 "dave").2
          = [WsEvent.roomAdd 9, WsEvent.storeSetPresence "dave" none]
            ++ [7, 9].map (fun p => WsEvent.send p (WsMsg.presenceUpdate 1 "dave" none))
            ++ [WsEvent.storePrune 30]
            ++ (stale.map (fun su =>
                  [7, 9].map (fun p => WsEvent.send p (WsMsg.presenceLeave 1 su)))).flatten
            ++ [WsEvent.send 9
                (WsMsg.bootstrap 1 s'.y_updates s'.version s'.presence s'.following)]
      ∧ (∀ e ∈ (core_session_ws_connect stW 100 1 [7, 9] 9 "dave").2,
          ∀ d u2 v2 p2 f2, e = WsEvent.send d (WsMsg.bootstrap 1 u2 v2 p2 f2) → d = 9)
      ∧ ∃ l1 l2, (core_session_ws_connect stW 100 1 [7, 9] 9 "dave").2
          = l1 ++ WsEvent.send 9 (WsMsg.presenceUpdate 1 "dave" none) :: l2
          ∧ WsEvent.send 9
              (WsMsg.bootstrap 1 s'.y_updates s'.version s'.presence s'.following) ∈ l2 :=
  c9_connect_order stW 100 1 [7, 9] 9 "dave" sW (by decide) (by decide)
